import Mathlib

/-
  Verification of the CheckIt Framer plugin (src/src/App.tsx).

  The file shallowly embeds the four checkers of the plugin:
  the link collector (getAllLinks / getLinksFromSelection), the link
  validator (validateLink), the style auditor (checkStyles) and the
  width auditor (checkWidths).  Host data (canvas nodes, style
  catalogs, frame enumerations, network responses) is passed in
  explicitly; JavaScript truthiness and the two regular expressions of
  the validator are modelled by executable Boolean functions.
-/

set_option autoImplicit false

namespace CheckIt

/-! ## JavaScript string primitives -/

/-- Embedding of JavaScript `String.prototype.startsWith`. -/
def jsStartsWith (s p : String) : Bool :=
  p.data.isPrefixOf s.data

/-- Embedding of JavaScript `String.prototype.includes` for a single character. -/
def jsIncludesChar (s : String) (c : Char) : Bool :=
  s.data.contains c

/-- Embedding of JavaScript `String.prototype.substring(n)` (drop the first `n` units). -/
def jsSubstringFrom (s : String) (n : Nat) : String :=
  String.mk (s.data.drop n)

/-- JavaScript truthiness of an optional string (absent and empty are falsy). -/
def truthyOptStr : Option String → Bool
  | none => false
  | some s => s != ""

/-- JavaScript rendering of a possibly-absent string inside a template literal. -/
def showJsOptStr : Option String → String
  | none => "undefined"
  | some s => s

/-! ## Link validator (`validateLink`, App.tsx lines 57-119)

The network is supplied as an oracle: `some status` means a response
was obtained (with that HTTP status code), `none` means transport
failure (the `catch` branch of the `fetch`). -/

/-- Result record of `validateLink` (the optional `message` field). -/
structure ValidationResult where
  url : String
  status : Nat
  valid : Bool
  message : Option String
  deriving DecidableEq

/-- Message of classification rule 2 (bare email). -/
def mailtoMsg : String := "Email link should start with \"mailto:\""

/-- Message of classification rule 4 (bare digit string). -/
def telMsg : String := "Phone number link should start with \"tel:\""

/-- Characters matched by `\s` in the validator's phone regex. -/
def isJsSpace (c : Char) : Bool :=
  c == ' ' || c == '\t' || c == '\n' || c == '\r'

/-- The regex `^\+?\d[\d\s]*$` of the `tel:` branch, on the character list. -/
def telMatch (s : String) : Bool :=
  match s.data with
  | '+' :: c :: rest => c.isDigit && rest.all (fun x => x.isDigit || isJsSpace x)
  | c :: rest => c.isDigit && rest.all (fun x => x.isDigit || isJsSpace x)
  | [] => false

/-- The regex `^\+?\d+$` of the bare-digit rule, on the character list. -/
def bareDigitsMatch (s : String) : Bool :=
  match s.data with
  | '+' :: c :: rest => c.isDigit && rest.all Char.isDigit
  | c :: rest => c.isDigit && rest.all Char.isDigit
  | [] => false

/-- Embedding of `validateLink`.  `fetchResult` is the network oracle for the
general-URL branch: `some code` when a response is obtained, `none` on
transport failure. -/
def validateLink (url : String) (fetchResult : Option Nat) : ValidationResult :=
  if jsStartsWith url "mailto:" then
    let email := jsSubstringFrom url 7
    if !(jsIncludesChar email '@') || !(jsIncludesChar email '.') then
      ⟨url, 0, false, none⟩
    else
      ⟨url, 0, true, none⟩
  else if jsIncludesChar url '@' && jsIncludesChar url '.' then
    ⟨url, 0, false, some mailtoMsg⟩
  else if jsStartsWith url "tel:" then
    let phoneNumber := jsSubstringFrom url 4
    if !(telMatch phoneNumber) then
      ⟨url, 0, false, none⟩
    else
      ⟨url, 0, true, none⟩
  else if bareDigitsMatch url then
    ⟨url, 0, false, some telMsg⟩
  else if jsIncludesChar url '+' && jsIncludesChar url '.' then
    ⟨url, 0, false, none⟩
  else
    match fetchResult with
    | some code => ⟨url, code, true, none⟩
    | none => ⟨url, 0, false, none⟩

/-! ## Link collector (`getAllLinks` / `getLinksFromSelection`, App.tsx lines 5-53) -/

/-- Value stored in a node's control/property bag: a string, or some other
JavaScript value of which only the truthiness matters. -/
inductive CVal where
  | str (s : String)
  | other (truthy : Bool)
  deriving DecidableEq

/-- JavaScript truthiness of a control value. -/
def truthyCVal : CVal → Bool
  | .str s => s != ""
  | .other b => b

/-- A control/property bag, in JavaScript insertion order. -/
abbrev ControlBag := List (String × CVal)

/-- Embedding of `node.controls[k]` (property access on a JavaScript object). -/
def lookupBag (bag : ControlBag) (k : String) : Option CVal :=
  (bag.find? fun kv => kv.1 == k).map fun kv => kv.2

/-- A canvas node as consumed by the link collector: direct link attribute,
optional control bag, class discriminator and children. -/
inductive LinkNode where
  | mk (link : Option String) (controls : Option ControlBag) (cls : String)
      (children : List LinkNode)

/-- The path-like / scheme test of the component-instance control-bag scan:
the value starts with a slash, with tel: or with mailto:. -/
def linkish (s : String) : Bool :=
  jsStartsWith s "/" || jsStartsWith s "tel:" || jsStartsWith s "mailto:"

/-- Rule 1 of the collector: emit the node's direct `link` attribute when truthy. -/
def emitDirect (link : Option String) : List CVal :=
  match link with
  | some s => if s != "" then [CVal.str s] else []
  | none => []

/-- Rule 2 of the collector: emit `node.controls?.link` when truthy. -/
def emitControlsLink (controls : Option ControlBag) : List CVal :=
  match controls with
  | some bag =>
    match lookupBag bag "link" with
    | some v => if truthyCVal v then [v] else []
    | none => []
  | none => []

/-- Rule 3 of the collector: the component-instance control-bag scan, emitting
every string-valued entry that passes `linkish`. -/
def emitBagScan (controls : Option ControlBag) : List CVal :=
  match controls with
  | some bag =>
    bag.filterMap fun kv =>
      match kv.2 with
      | CVal.str s => if linkish s then some (CVal.str s) else none
      | CVal.other _ => none
  | none => []

mutual

/-- Embedding of `getAllLinks` (App.tsx lines 5-38). -/
def getAllLinks : LinkNode → List CVal
  | .mk link controls cls children =>
    if cls == "ComponentInstanceNode" then
      emitDirect link ++ emitControlsLink controls ++ emitBagScan controls
    else
      emitDirect link ++ emitControlsLink controls ++ getAllLinksList children

/-- The child loop of `getAllLinks` (lines 32-35): concatenation over children. -/
def getAllLinksList : List LinkNode → List CVal
  | [] => []
  | n :: rest => getAllLinks n ++ getAllLinksList rest

end

/-- Embedding of `getLinksFromSelection` (App.tsx lines 43-53). -/
def getLinksFromSelection (selection : List LinkNode) : List CVal :=
  selection.foldl (fun acc n => acc ++ getAllLinks n) []

/-! ## Width auditor (`checkWidths`, App.tsx lines 240-294)

The host's `getNodesWithType(node, "FrameNode")` enumeration is supplied
per selection root as an explicit list of frame records. -/

/-- A frame-typed node as consumed by the width auditor. `maxWidth` is
`none` when unset (JavaScript `null`/`undefined`); `some 0` is also falsy. -/
structure FrameNode where
  name : String
  id : String
  width : String
  maxWidth : Option Nat
  deriving DecidableEq

/-- JavaScript truthiness of the `maxWidth` attribute. -/
def truthyMaxWidth : Option Nat → Bool
  | none => false
  | some n => n != 0

/-- A frame escapes the exempt-root test: its name differs from "Desktop". -/
def auditedFrame (f : FrameNode) : Bool :=
  f.name != "Desktop"

/-- Width is invalid: neither the proportional-fill marker "1fr" nor the
content-fit marker "fit-content". -/
def invalidWidth (f : FrameNode) : Bool :=
  f.width != "1fr" && f.width != "fit-content"

/-- The descriptor string rendered for a frame in every report set. -/
def frameDescr (f : FrameNode) : String :=
  "\"" ++ f.name ++ "\" (ID: " ++ f.id ++ ")"

/-- The summary entry recorded when mixed width modes are detected. -/
def inconsSummary : String :=
  "Detected mixed REL (1fr) and FILL (fit-content) widths in the template."

/-- Insertion-ordered set insertion (JavaScript `Set.prototype.add`). -/
def insertSet (l : List String) (s : String) : List String :=
  if s ∈ l then l else l ++ [s]

/-- Insertion into the per-run mode-to-nodes map (JavaScript `Map` with
`push` into the bucket of an existing key). -/
def addBucket (m : List (String × List FrameNode)) (k : String) (f : FrameNode) :
    List (String × List FrameNode) :=
  match m with
  | [] => [(k, [f])]
  | (k', b) :: rest =>
    if k' == k then (k', b ++ [f]) :: rest else (k', b) :: addBucket rest k f

/-- State of the walk of `checkWidths`: the three accumulating sets and the
`widthTypes` map. -/
structure WidthState where
  inconsistencies : List String
  noMaxWidth : List String
  invalidWidths : List String
  widthTypes : List (String × List FrameNode)
  deriving DecidableEq

/-- Processing of one frame node (App.tsx lines 252-273). -/
def stepFrame (st : WidthState) (f : FrameNode) : WidthState :=
  if f.name == "Desktop" then st
  else
    let st1 :=
      if invalidWidth f then
        { st with invalidWidths := insertSet st.invalidWidths (frameDescr f) }
      else
        { st with widthTypes := addBucket st.widthTypes f.width f }
    if !(truthyMaxWidth f.maxWidth) then
      { st1 with noMaxWidth := insertSet st1.noMaxWidth (frameDescr f) }
    else
      st1

/-- The inner frame loop of `checkWidths` for one selection root. -/
def runFrames (st : WidthState) (fs : List FrameNode) : WidthState :=
  fs.foldl stepFrame st

/-- The result record of `checkWidths` (after `Array.from`). -/
structure WidthReport where
  inconsistencies : List String
  noMaxWidth : List String
  invalidWidths : List String
  deriving DecidableEq

/-- Initial (empty) walk state. -/
def initWidthState : WidthState := ⟨[], [], [], []⟩

/-- The post-walk inconsistency check and packaging (App.tsx lines 276-294). -/
def finishWidths (st : WidthState) : WidthReport :=
  if st.widthTypes.length > 1 then
    ⟨st.widthTypes.foldl
        (fun acc kb => kb.2.foldl (fun a f => insertSet a (frameDescr f)) acc)
        (insertSet st.inconsistencies inconsSummary),
      st.noMaxWidth, st.invalidWidths⟩
  else
    ⟨st.inconsistencies, st.noMaxWidth, st.invalidWidths⟩

/-- Embedding of `checkWidths`: `selection` carries, per selection root, the
host-provided list of frame-typed descendants. -/
def checkWidths (selection : List (List FrameNode)) : WidthReport :=
  finishWidths (selection.foldl runFrames initWidthState)

/-- The audited frames with a valid width: the frames contributing to the
width-mode map. -/
def auditedValid (fs : List FrameNode) : List FrameNode :=
  fs.filter fun f => auditedFrame f && !invalidWidth f

/-- The audited frames with an invalid width: the frames contributing to the
invalid-width set. -/
def auditedInvalid (fs : List FrameNode) : List FrameNode :=
  fs.filter fun f => auditedFrame f && invalidWidth f

/-! ## Style auditor (`checkStyles`, App.tsx lines 121-186)

The catalogs returned by `framer.getTextStyles()` / `framer.getColorStyles()`
are supplied as explicit lists. -/

/-- A text-style catalog entry; optional fields model JavaScript falsiness. -/
structure TextStyle where
  id : String
  tag : String
  name : Option String
  font : Option String
  color : Option String
  fontSize : String
  deriving DecidableEq

/-- A color-style catalog entry. -/
structure ColorStyle where
  id : String
  name : Option String
  light : Option String
  dark : Option String
  deriving DecidableEq

/-- A selection node as consumed by the style auditor: the optional
`text.style` reference and the optional `color` reference. -/
structure StyleNode where
  id : String
  textStyleRef : Option String
  colorRef : Option String
  deriving DecidableEq

/-- Catalog-completeness messages for one text-style entry (lines 131-144). -/
def textStyleEntryErrors (st : TextStyle) : List String :=
  (if !(truthyOptStr st.name) then
    ["Text style with tag " ++ st.tag ++ " is missing a name."] else []) ++
  (if !(truthyOptStr st.font) then
    ["Text style with tag " ++ st.tag ++ " is missing a font."] else []) ++
  (if !(truthyOptStr st.color) then
    ["Text style with tag " ++ st.tag ++ " is missing a color."] else []) ++
  (if st.fontSize == "0px" then
    ["Text style with tag " ++ st.tag ++ " has an invalid font size of 0px."] else [])

/-- Catalog-completeness messages for one color-style entry (lines 147-157). -/
def colorStyleEntryErrors (st : ColorStyle) : List String :=
  (if !(truthyOptStr st.name) then
    ["Color style \"" ++ showJsOptStr st.name ++ "\" is missing a name."] else []) ++
  (if !(truthyOptStr st.light) then
    ["Color style with \"" ++ showJsOptStr st.name ++ "\" is missing a light color value."] else []) ++
  (if !(truthyOptStr st.dark) then
    ["Color style with \"" ++ showJsOptStr st.name ++ "\" is missing a dark color value."] else [])

/-- Usage-pass messages for one selection node (lines 160-167). -/
def nodeUsageErrors (ts : List TextStyle) (cs : List ColorStyle) (n : StyleNode) :
    List String :=
  (match n.textStyleRef with
   | some r =>
     if r != "" && !(ts.any fun st => st.id == r) then
       ["Node with ID " ++ n.id ++ " is using a non-existent text style."]
     else []
   | none => []) ++
  (match n.colorRef with
   | some r =>
     if r != "" && !(cs.any fun st => st.id == r) then
       ["Node with ID " ++ n.id ++ " is using a non-existent color style."]
     else []
   | none => [])

/-- The `errors` array of `checkStyles`: the usage pass over the selection. -/
def usageErrors (sel : List StyleNode) (ts : List TextStyle) (cs : List ColorStyle) :
    List String :=
  sel.foldl (fun acc n => acc ++ nodeUsageErrors ts cs n) []

/-- Embedding of `checkStyles` (lines 121-186).  The source computes the
usage-pass array `errors` but returns only `categorizedErrors`, which is
built from the two catalog passes; the unused binding mirrors that. -/
def checkStyles (sel : List StyleNode) (ts : List TextStyle) (cs : List ColorStyle) :
    List String :=
  let textStyleErrors := ts.foldl (fun acc st => acc ++ textStyleEntryErrors st) []
  let colorStyleErrors := cs.foldl (fun acc st => acc ++ colorStyleEntryErrors st) []
  let _errors := usageErrors sel ts cs
  (if textStyleErrors.length > 0 then textStyleErrors else []) ++
  (if colorStyleErrors.length > 0 then colorStyleErrors else [])

/-! ## General lemmas -/

/-- Appending-fold over roots equals flattening the per-root link lists. -/
theorem foldl_append_getAllLinks (l : List LinkNode) (acc : List CVal) :
    l.foldl (fun a n => a ++ getAllLinks n) acc = acc ++ (l.map getAllLinks).flatten := by
  induction l generalizing acc with
  | nil => simp
  | cons n rest ih => simp [ih]

/-- A string prefixed by `tel:` is not prefixed by `mailto:`. -/
theorem tel_not_mailto (url : String) (h : jsStartsWith url "tel:" = true) :
    jsStartsWith url "mailto:" = false := by
  unfold jsStartsWith at h ⊢
  rw [show ("tel:" : String).data = ['t', 'e', 'l', ':'] from rfl] at h
  rw [show ("mailto:" : String).data = ['m', 'a', 'i', 'l', 't', 'o', ':'] from rfl]
  cases hd : url.data with
  | nil => rw [hd] at h; simp [List.isPrefixOf] at h
  | cons c rest =>
    rw [hd] at h
    simp only [List.isPrefixOf, Bool.and_eq_true, beq_iff_eq] at h
    obtain ⟨hc, -⟩ := h
    subst hc
    have hmt : ('m' == 't') = false := by decide
    simp [List.isPrefixOf, hmt]

/-! ## Claim theorems: link validator -/

/-- C3: a link that reaches the general-URL branch is reported valid with the
response's status code whenever any response is obtained, regardless of the
HTTP status value, and on transport failure the validator returns status 0
and valid=false instead of propagating the error. -/
theorem validateLink_general_branch (url : String)
    (h1 : jsStartsWith url "mailto:" = false)
    (h2 : (jsIncludesChar url '@' && jsIncludesChar url '.') = false)
    (h3 : jsStartsWith url "tel:" = false)
    (h4 : bareDigitsMatch url = false)
    (h5 : (jsIncludesChar url '+' && jsIncludesChar url '.') = false) :
    (∀ code, validateLink url (some code) = ⟨url, code, true, none⟩) ∧
    validateLink url none = ⟨url, 0, false, none⟩ := by
  constructor
  · intro code
    simp [validateLink, h1, h2, h3, h4, h5]
  · simp [validateLink, h1, h2, h3, h4, h5]

/-- Witness for C3 at the concrete URL "https://example.com". -/
theorem validateLink_general_branch_witness :
    jsStartsWith "https://example.com" "mailto:" = false ∧
    validateLink "https://example.com" (some 404) = ⟨"https://example.com", 404, true, none⟩ ∧
    validateLink "https://example.com" none = ⟨"https://example.com", 0, false, none⟩ := by
  have h := validateLink_general_branch "https://example.com" (by decide) (by decide)
    (by decide) (by decide) (by decide)
  exact ⟨by decide, h.1 404, h.2⟩

/-- C5: a `mailto:` link is validated offline (status 0, any network oracle),
valid exactly when the stripped remainder contains both an at sign and a dot;
a non-`mailto:` string containing both is rejected offline with the
mailto-prefix message. -/
theorem validateLink_mailto_rules (url : String) :
    (jsStartsWith url "mailto:" = true →
      ∀ fr, validateLink url fr =
        ⟨url, 0,
          jsIncludesChar (jsSubstringFrom url 7) '@' &&
            jsIncludesChar (jsSubstringFrom url 7) '.', none⟩) ∧
    (jsStartsWith url "mailto:" = false → jsIncludesChar url '@' = true →
      jsIncludesChar url '.' = true →
      ∀ fr, validateLink url fr = ⟨url, 0, false, some mailtoMsg⟩) := by
  constructor
  · intro h fr
    cases ha : jsIncludesChar (jsSubstringFrom url 7) '@' <;>
      cases hb : jsIncludesChar (jsSubstringFrom url 7) '.' <;>
        simp [validateLink, h, ha, hb]
  · intro h h1 h2 fr
    simp [validateLink, h, h1, h2]

/-- Witness for C5 at "mailto:a@b.com" (valid) and "tel:a@b.c" (rejected with
the mailto message, no network call). -/
theorem validateLink_mailto_rules_witness :
    validateLink "mailto:a@b.com" (some 7) = ⟨"mailto:a@b.com", 0, true, none⟩ ∧
    validateLink "tel:a@b.c" (some 7) = ⟨"tel:a@b.c", 0, false, some mailtoMsg⟩ := by
  constructor
  · exact ((validateLink_mailto_rules "mailto:a@b.com").1 (by decide) (some 7)).trans
      (by decide)
  · exact (validateLink_mailto_rules "tel:a@b.c").2 (by decide) (by decide) (by decide)
      (some 7)

/-- C6: a `tel:` link (not containing both an at sign and a dot) is validated
offline, valid exactly when the stripped remainder matches the phone regex;
a bare digit string is rejected offline with the tel-prefix message. -/
theorem validateLink_tel_rules (url : String) :
    (jsStartsWith url "tel:" = true →
      (jsIncludesChar url '@' && jsIncludesChar url '.') = false →
      ∀ fr, validateLink url fr = ⟨url, 0, telMatch (jsSubstringFrom url 4), none⟩) ∧
    (jsStartsWith url "mailto:" = false → jsStartsWith url "tel:" = false →
      (jsIncludesChar url '@' && jsIncludesChar url '.') = false →
      bareDigitsMatch url = true →
      ∀ fr, validateLink url fr = ⟨url, 0, false, some telMsg⟩) := by
  constructor
  · intro ht h2 fr
    have hm := tel_not_mailto url ht
    cases htm : telMatch (jsSubstringFrom url 4) <;>
      simp [validateLink, hm, h2, ht, htm]
  · intro hm ht h2 hb fr
    simp [validateLink, hm, ht, h2, hb]

/-- Witness for C6 at "tel:+1 555 1234" (valid) and "5551234" (rejected with
the tel message). -/
theorem validateLink_tel_rules_witness :
    validateLink "tel:+1 555 1234" none = ⟨"tel:+1 555 1234", 0, true, none⟩ ∧
    validateLink "5551234" none = ⟨"5551234", 0, false, some telMsg⟩ := by
  constructor
  · exact ((validateLink_tel_rules "tel:+1 555 1234").1 (by decide) (by decide) none).trans
      (by decide)
  · exact (validateLink_tel_rules "5551234").2 (by decide) (by decide) (by decide)
      (by decide) none

/-! ## Claim theorems: link collector (selection level) -/

/-- C9: the collector over a selection is the ordered concatenation of the
collector over each root, its length is the sum of the per-root lengths, and
the empty selection yields the empty sequence. -/
theorem getLinksFromSelection_concat (sel : List LinkNode) :
    getLinksFromSelection sel = (sel.map getAllLinks).flatten ∧
    (getLinksFromSelection sel).length =
      (sel.map fun n => (getAllLinks n).length).sum ∧
    getLinksFromSelection ([] : List LinkNode) = [] := by
  refine ⟨?_, ?_, rfl⟩
  · simp [getLinksFromSelection, foldl_append_getAllLinks]
  · simp only [getLinksFromSelection, foldl_append_getAllLinks, List.nil_append,
      List.length_flatten, List.map_map]
    rfl

/-! ## Claim theorems: style auditor -/

/-- C1 (code bug): `checkStyles` computes the usage-pass violations into the
`errors` array but returns only `categorizedErrors`, so the returned sequence
never contains a usage-pass violation: the result is independent of the
selection, and at a selection whose node references a non-existent text style
the usage pass produces the violation while the returned sequence is empty. -/
theorem checkStyles_usage_violations_dropped :
    (∀ sel ts cs, checkStyles sel ts cs = checkStyles [] ts cs) ∧
    usageErrors [⟨"n1", some "T1", none⟩] [] [] =
      ["Node with ID n1 is using a non-existent text style."] ∧
    checkStyles [⟨"n1", some "T1", none⟩] [] [] = [] := by
  refine ⟨fun sel ts cs => rfl, by decide, by decide⟩

/-! ## Claim theorems: link collector (component instances) -/

/-- Unfolding of the collector at a component-instance node. -/
theorem getAllLinks_CIN (l : Option String) (c : Option ControlBag) (ch : List LinkNode) :
    getAllLinks (.mk l c "ComponentInstanceNode" ch) =
      emitDirect l ++ emitControlsLink c ++ emitBagScan c := by
  simp [getAllLinks]

/-- Inversion of rule 1: an emitted direct link comes from the link attribute. -/
theorem mem_emitDirect {v : CVal} {l : Option String} (h : v ∈ emitDirect l) :
    ∃ s, l = some s ∧ v = CVal.str s := by
  cases l with
  | none => simp [emitDirect] at h
  | some s =>
    by_cases hs : (s != "") = true
    · refine ⟨s, rfl, ?_⟩
      simp [emitDirect, hs] at h
      exact h
    · simp [emitDirect, hs] at h

/-- Inversion of rule 2: an emitted controls link is the bag's `link` entry. -/
theorem mem_emitControlsLink {v : CVal} {c : Option ControlBag}
    (h : v ∈ emitControlsLink c) :
    ∃ bag, c = some bag ∧ lookupBag bag "link" = some v := by
  cases c with
  | none => simp [emitControlsLink] at h
  | some bag =>
    refine ⟨bag, rfl, ?_⟩
    cases hlk : lookupBag bag "link" with
    | none => simp [emitControlsLink, hlk] at h
    | some w =>
      by_cases ht : truthyCVal w = true
      · simp [emitControlsLink, hlk, ht] at h
        rw [h]
      · simp [emitControlsLink, hlk, ht] at h

/-- Inversion of rule 3: an emitted bag-scan value is a string-valued bag
entry passing the path/scheme test. -/
theorem mem_emitBagScan {v : CVal} {c : Option ControlBag} (h : v ∈ emitBagScan c) :
    ∃ bag k s, c = some bag ∧ (k, CVal.str s) ∈ bag ∧ linkish s = true ∧
      v = CVal.str s := by
  cases c with
  | none => simp [emitBagScan] at h
  | some bag =>
    unfold emitBagScan at h
    obtain ⟨kv, hkv, hf⟩ := List.mem_filterMap.mp h
    obtain ⟨k, cv⟩ := kv
    cases cv with
    | other b => simp at hf
    | str s =>
      dsimp only at hf
      split at hf
      · next hli => exact ⟨bag, k, s, rfl, hkv, hli, (Option.some.inj hf).symm⟩
      · cases hf

/-- C4: for a component-instance node the collector ignores the children
entirely; every emitted value originates from the node's own link attribute,
the control bag's `link` field, or a string-valued control entry passing the
path/tel/mailto test. -/
theorem getAllLinks_component_instance_own_fields (l : Option String) (c : Option ControlBag)
    (ch : List LinkNode) :
    getAllLinks (.mk l c "ComponentInstanceNode" ch) =
      getAllLinks (.mk l c "ComponentInstanceNode" []) ∧
    ∀ v ∈ getAllLinks (.mk l c "ComponentInstanceNode" ch),
      (∃ s, l = some s ∧ v = CVal.str s) ∨
      (∃ bag, c = some bag ∧ lookupBag bag "link" = some v) ∨
      (∃ bag k s, c = some bag ∧ (k, CVal.str s) ∈ bag ∧ linkish s = true ∧
        v = CVal.str s) := by
  refine ⟨by rw [getAllLinks_CIN, getAllLinks_CIN], ?_⟩
  intro v hv
  rw [getAllLinks_CIN] at hv
  rcases List.mem_append.mp hv with hv' | hscan
  · rcases List.mem_append.mp hv' with hdir | hctl
    · exact Or.inl (mem_emitDirect hdir)
    · exact Or.inr (Or.inl (mem_emitControlsLink hctl))
  · exact Or.inr (Or.inr (mem_emitBagScan hscan))

/-- Witness for C4 at a concrete component instance with a child. -/
theorem getAllLinks_component_instance_own_fields_witness :
    CVal.str "tel:5" ∈ getAllLinks (.mk (some "/home")
      (some [("x", CVal.str "tel:5"), ("y", CVal.other true)])
      "ComponentInstanceNode" [.mk (some "/child") none "FrameNode" []]) ∧
    ((∃ s, (some "/home" : Option String) = some s ∧ CVal.str "tel:5" = CVal.str s) ∨
      (∃ bag, (some [("x", CVal.str "tel:5"), ("y", CVal.other true)] : Option ControlBag) =
          some bag ∧ lookupBag bag "link" = some (CVal.str "tel:5")) ∨
      (∃ bag k s, (some [("x", CVal.str "tel:5"), ("y", CVal.other true)] : Option ControlBag) =
          some bag ∧ (k, CVal.str s) ∈ bag ∧ linkish s = true ∧
        CVal.str "tel:5" = CVal.str s)) := by
  refine ⟨by decide, ?_⟩
  exact (getAllLinks_component_instance_own_fields (some "/home")
    (some [("x", CVal.str "tel:5"), ("y", CVal.other true)])
    [.mk (some "/child") none "FrameNode" []]).2 (CVal.str "tel:5") (by decide)

/-- A value passing the path/scheme test is a non-empty string. -/
theorem linkish_truthy {s : String} (h : linkish s = true) : (s != "") = true := by
  by_cases he : s = ""
  · subst he; exact absurd h (by decide)
  · exact bne_iff_ne.mpr he

/-- C10: a component-instance whose control bag holds a `link` entry passing
the path/tel/mailto test emits that string at least twice: once from the
controls-link rule and once from the control-bag scan (no deduplication). -/
theorem getAllLinks_duplicate_link_control (l : Option String) (bag : ControlBag)
    (ch : List LinkNode) (s : String)
    (h1 : lookupBag bag "link" = some (CVal.str s)) (h2 : linkish s = true) :
    2 ≤ (getAllLinks (.mk l (some bag) "ComponentInstanceNode" ch)).count (CVal.str s) := by
  rw [getAllLinks_CIN, List.count_append, List.count_append]
  have hctl : (emitControlsLink (some bag)).count (CVal.str s) = 1 := by
    simp [emitControlsLink, h1, truthyCVal, linkish_truthy h2]
  have hscan : 0 < (emitBagScan (some bag)).count (CVal.str s) := by
    apply List.count_pos_iff.mpr
    obtain ⟨kv, hfind, hsnd⟩ := Option.map_eq_some'.mp h1
    have hmem : kv ∈ bag := List.mem_of_find?_eq_some hfind
    refine List.mem_filterMap.mpr ⟨kv, hmem, ?_⟩
    rw [hsnd]
    simp [h2]
  omega

/-- Witness for C10 at a concrete component instance. -/
theorem getAllLinks_duplicate_link_control_witness :
    lookupBag [("link", CVal.str "/about")] "link" = some (CVal.str "/about") ∧
    linkish "/about" = true ∧
    2 ≤ (getAllLinks (.mk none (some [("link", CVal.str "/about")])
      "ComponentInstanceNode" [])).count (CVal.str "/about") :=
  ⟨by decide, by decide,
    getAllLinks_duplicate_link_control none [("link", CVal.str "/about")] [] "/about"
      (by decide) (by decide)⟩

/-! ## Width auditor lemmas -/

/-- Membership in an insertion-ordered set after one insertion. -/
theorem mem_insertSet {x s : String} {l : List String} :
    x ∈ insertSet l s ↔ x ∈ l ∨ x = s := by
  unfold insertSet
  split
  · next hmem =>
    constructor
    · exact Or.inl
    · rintro (hx | rfl)
      · exact hx
      · exact hmem
  · simp

/-- Membership after folding set insertion over a list. -/
theorem mem_foldl_insertSet (l : List String) (acc : List String) (x : String) :
    x ∈ l.foldl insertSet acc ↔ x ∈ acc ∨ x ∈ l := by
  induction l generalizing acc with
  | nil => simp
  | cons a t ih =>
    rw [List.foldl_cons, ih, mem_insertSet, List.mem_cons]
    tauto

/-- Set insertion preserves the no-duplicates invariant. -/
theorem nodup_insertSet {l : List String} {s : String} (h : l.Nodup) :
    (insertSet l s).Nodup := by
  unfold insertSet
  split
  · exact h
  · next hmem => simp [List.nodup_append, h, hmem]

/-- Folded set insertion preserves the no-duplicates invariant. -/
theorem nodup_foldl_insertSet (l : List String) (acc : List String) (h : acc.Nodup) :
    (l.foldl insertSet acc).Nodup := by
  induction l generalizing acc with
  | nil => exact h
  | cons a t ih => exact ih (insertSet acc a) (nodup_insertSet h)

/-- Folding set insertion over elements already present changes nothing. -/
theorem foldl_insertSet_const (l : List String) (acc : List String)
    (h : ∀ x ∈ l, x ∈ acc) : l.foldl insertSet acc = acc := by
  induction l with
  | nil => rfl
  | cons a t ih =>
    have ha : insertSet acc a = acc := by
      unfold insertSet
      rw [if_pos (h a (by simp))]
    rw [List.foldl_cons, ha]
    exact ih fun x hx => h x (by simp [hx])

/-- When every element of the list is equal, the deduplicated list has at
most one element. -/
theorem length_dedup_all_eq (l : List String) (h : ∀ x ∈ l, ∀ y ∈ l, x = y) :
    (l.foldl insertSet []).length ≤ 1 := by
  cases l with
  | nil => simp
  | cons a t =>
    rw [List.foldl_cons, show insertSet [] a = [a] by simp [insertSet]]
    rw [foldl_insertSet_const t [a] fun x hx => by
      simp [h x (by simp [hx]) a (by simp)]]
    simp

/-- A list with two distinct members has length at least two. -/
theorem one_lt_length_of_two_mem {α : Type} {l : List α} {x y : α} (hx : x ∈ l)
    (hy : y ∈ l) (hne : x ≠ y) : 1 < l.length := by
  match l with
  | [] => cases hx
  | [a] =>
    rw [List.mem_singleton] at hx hy
    exact absurd (hx.trans hy.symm) hne
  | a :: b :: t => simp only [List.length_cons]; omega

/-- The walk never touches the inconsistency set. -/
theorem stepFrame_inconsistencies (st : WidthState) (f : FrameNode) :
    (stepFrame st f).inconsistencies = st.inconsistencies := by
  unfold stepFrame
  by_cases hn : (f.name == "Desktop") = true
  · simp [hn]
  · by_cases hw : invalidWidth f = true <;>
      by_cases hm : (!truthyMaxWidth f.maxWidth) = true <;>
        simp [hn, hw, hm]

/-- Effect of one step on the invalid-width set. -/
theorem stepFrame_invalidWidths (st : WidthState) (f : FrameNode) :
    (stepFrame st f).invalidWidths =
      if auditedFrame f && invalidWidth f then
        insertSet st.invalidWidths (frameDescr f)
      else
        st.invalidWidths := by
  unfold stepFrame auditedFrame
  by_cases hn : (f.name == "Desktop") = true
  · simp [hn, bne]
  · by_cases hw : invalidWidth f = true <;>
      by_cases hm : (!truthyMaxWidth f.maxWidth) = true <;>
        simp [hn, hw, hm, bne]

/-- Effect of one step on the missing-max-width set. -/
theorem stepFrame_noMaxWidth (st : WidthState) (f : FrameNode) :
    (stepFrame st f).noMaxWidth =
      if auditedFrame f && !truthyMaxWidth f.maxWidth then
        insertSet st.noMaxWidth (frameDescr f)
      else
        st.noMaxWidth := by
  unfold stepFrame auditedFrame
  by_cases hn : (f.name == "Desktop") = true
  · simp [hn, bne]
  · by_cases hw : invalidWidth f = true <;>
      by_cases hm : (!truthyMaxWidth f.maxWidth) = true <;>
        simp [hn, hw, hm, bne]

/-- Effect of one step on the width-mode map. -/
theorem stepFrame_widthTypes (st : WidthState) (f : FrameNode) :
    (stepFrame st f).widthTypes =
      if auditedFrame f && !invalidWidth f then
        addBucket st.widthTypes f.width f
      else
        st.widthTypes := by
  unfold stepFrame auditedFrame
  by_cases hn : (f.name == "Desktop") = true
  · simp [hn, bne]
  · by_cases hw : invalidWidth f = true <;>
      by_cases hm : (!truthyMaxWidth f.maxWidth) = true <;>
        simp [hn, hw, hm, bne]

/-- The walk state after the frame loop: inconsistency set unchanged. -/
theorem runFrames_inconsistencies (fs : List FrameNode) (st : WidthState) :
    (runFrames st fs).inconsistencies = st.inconsistencies := by
  induction fs generalizing st with
  | nil => rfl
  | cons f t ih =>
    rw [runFrames, List.foldl_cons, ← runFrames, ih, stepFrame_inconsistencies]

/-- The invalid-width set after the frame loop is the deduplicated list of
descriptors of audited invalid-width frames. -/
theorem runFrames_invalidWidths (fs : List FrameNode) (st : WidthState) :
    (runFrames st fs).invalidWidths =
      (((fs.filter fun f => auditedFrame f && invalidWidth f).map frameDescr).foldl
        insertSet st.invalidWidths) := by
  induction fs generalizing st with
  | nil => rfl
  | cons f t ih =>
    rw [runFrames, List.foldl_cons, ← runFrames, ih, List.filter_cons]
    by_cases hp : (auditedFrame f && invalidWidth f) = true
    · rw [if_pos hp, List.map_cons, List.foldl_cons, stepFrame_invalidWidths, if_pos hp]
    · rw [if_neg hp, stepFrame_invalidWidths, if_neg hp]

/-- The width-mode map after the frame loop is the bucket map of the audited
valid-width frames. -/
theorem runFrames_widthTypes (fs : List FrameNode) (st : WidthState) :
    (runFrames st fs).widthTypes =
      ((fs.filter fun f => auditedFrame f && !invalidWidth f).foldl
        (fun m f => addBucket m f.width f) st.widthTypes) := by
  induction fs generalizing st with
  | nil => rfl
  | cons f t ih =>
    rw [runFrames, List.foldl_cons, ← runFrames, ih, List.filter_cons]
    by_cases hp : (auditedFrame f && !invalidWidth f) = true
    · rw [if_pos hp, List.foldl_cons, stepFrame_widthTypes, if_pos hp]
    · rw [if_neg hp, stepFrame_widthTypes, if_neg hp]

/-- The selection loop is the frame loop over the flattened enumeration. -/
theorem foldl_runFrames (sel : List (List FrameNode)) (st : WidthState) :
    sel.foldl runFrames st = runFrames st sel.flatten := by
  induction sel generalizing st with
  | nil => rfl
  | cons fs rest ih =>
    rw [List.foldl_cons, ih, List.flatten_cons]
    unfold runFrames
    rw [List.foldl_append]

/-- Keys of the bucket map after one insertion. -/
theorem addBucket_keys (m : List (String × List FrameNode)) (k : String) (f : FrameNode) :
    (addBucket m k f).map Prod.fst = insertSet (m.map Prod.fst) k := by
  induction m with
  | nil => simp [addBucket, insertSet]
  | cons kb rest ih =>
    obtain ⟨k', b⟩ := kb
    by_cases hk : (k' == k) = true
    · have hkk : k' = k := beq_iff_eq.mp hk
      subst hkk
      simp [addBucket, insertSet]
    · have hkk : ¬ k = k' := fun h => hk (beq_iff_eq.mpr h.symm)
      rw [show addBucket ((k', b) :: rest) k f = (k', b) :: addBucket rest k f by
        simp [addBucket, hk]]
      rw [List.map_cons, ih, List.map_cons]
      unfold insertSet
      by_cases hmem : k ∈ rest.map Prod.fst
      · rw [if_pos hmem, if_pos (by simp [hmem])]
      · rw [if_neg hmem, if_neg (by simp [hmem, hkk])]
        simp

/-- Bucket contents after one insertion. -/
theorem mem_buckets_addBucket (m : List (String × List FrameNode)) (k : String)
    (f g : FrameNode) :
    (∃ kb ∈ addBucket m k f, g ∈ kb.2) ↔ (∃ kb ∈ m, g ∈ kb.2) ∨ g = f := by
  induction m with
  | nil => simp [addBucket]
  | cons kb rest ih =>
    obtain ⟨k', b⟩ := kb
    by_cases hk : (k' == k) = true
    · rw [show addBucket ((k', b) :: rest) k f = (k', b ++ [f]) :: rest by
        simp [addBucket, hk]]
      simp only [List.mem_cons, exists_eq_or_imp, List.mem_append, List.mem_singleton,
        List.not_mem_nil, or_false]
      constructor
      · rintro ((h | h) | h)
        · exact Or.inl (Or.inl h)
        · exact Or.inr h
        · exact Or.inl (Or.inr h)
      · rintro ((h | h) | h)
        · exact Or.inl (Or.inl h)
        · exact Or.inr h
        · exact Or.inl (Or.inr h)
    · rw [show addBucket ((k', b) :: rest) k f = (k', b) :: addBucket rest k f by
        simp [addBucket, hk]]
      simp only [List.mem_cons, exists_eq_or_imp]
      rw [show (∃ kb ∈ addBucket rest k f, g ∈ kb.2) ↔
          (∃ kb ∈ rest, g ∈ kb.2) ∨ g = f from ih]
      exact or_assoc.symm

/-- Bucket contents after folding the bucket insertion over a frame list. -/
theorem mem_buckets_foldl (fs : List FrameNode) (m : List (String × List FrameNode))
    (g : FrameNode) :
    (∃ kb ∈ fs.foldl (fun m f => addBucket m f.width f) m, g ∈ kb.2) ↔
      (∃ kb ∈ m, g ∈ kb.2) ∨ g ∈ fs := by
  induction fs generalizing m with
  | nil => simp
  | cons f t ih =>
    rw [List.foldl_cons, ih, mem_buckets_addBucket, List.mem_cons]
    exact or_assoc

/-- Keys of the bucket map after folding over a frame list. -/
theorem keys_foldl_addBucket (fs : List FrameNode) (m : List (String × List FrameNode)) :
    (fs.foldl (fun m f => addBucket m f.width f) m).map Prod.fst =
      (fs.map fun f => f.width).foldl insertSet (m.map Prod.fst) := by
  induction fs generalizing m with
  | nil => rfl
  | cons f t ih =>
    rw [List.foldl_cons, ih, addBucket_keys, List.map_cons, List.foldl_cons]

/-- Membership in the inner descriptor-insertion fold. -/
theorem mem_inner_fold (fs : List FrameNode) (acc : List String) (x : String) :
    x ∈ fs.foldl (fun a f => insertSet a (frameDescr f)) acc ↔
      x ∈ acc ∨ ∃ f ∈ fs, frameDescr f = x := by
  rw [← List.foldl_map, mem_foldl_insertSet, List.mem_map]

/-- Membership in the post-walk inconsistency fold over all buckets. -/
theorem mem_incons_foldl (m : List (String × List FrameNode)) (acc : List String)
    (x : String) :
    x ∈ m.foldl (fun acc kb => kb.2.foldl (fun a f => insertSet a (frameDescr f)) acc)
        acc ↔
      x ∈ acc ∨ ∃ kb ∈ m, ∃ f ∈ kb.2, frameDescr f = x := by
  induction m generalizing acc with
  | nil => simp
  | cons kb rest ih =>
    rw [List.foldl_cons, ih, mem_inner_fold]
    simp only [List.mem_cons]
    constructor
    · rintro ((hx | ⟨f, hf, hfx⟩) | ⟨kb', hkb', f, hf, hfx⟩)
      · exact Or.inl hx
      · exact Or.inr ⟨kb, Or.inl rfl, f, hf, hfx⟩
      · exact Or.inr ⟨kb', Or.inr hkb', f, hf, hfx⟩
    · rintro (hx | ⟨kb', hkb' | hkb', f, hf, hfx⟩)
      · exact Or.inl (Or.inl hx)
      · cases hkb'
        exact Or.inl (Or.inr ⟨f, hf, hfx⟩)
      · exact Or.inr ⟨kb', hkb', f, hf, hfx⟩

/-- The post-walk inconsistency fold preserves the no-duplicates invariant. -/
theorem nodup_incons_foldl (m : List (String × List FrameNode)) (acc : List String)
    (h : acc.Nodup) :
    (m.foldl (fun acc kb => kb.2.foldl (fun a f => insertSet a (frameDescr f)) acc)
      acc).Nodup := by
  induction m generalizing acc with
  | nil => exact h
  | cons kb rest ih =>
    rw [List.foldl_cons]
    refine ih _ ?_
    rw [← List.foldl_map]
    exact nodup_foldl_insertSet _ _ h

/-- Concatenation of string data under appending. -/
theorem data_append (s t : String) : (s ++ t).data = s.data ++ t.data := by
  cases s
  cases t
  rfl

/-- A frame descriptor starts with a double quote. -/
theorem frameDescr_head (f : FrameNode) : (frameDescr f).data.head? = some '\x22' := by
  simp [frameDescr, data_append, List.append_assoc]

/-- A frame descriptor is never the mixed-widths summary entry. -/
theorem frameDescr_ne_summary (f : FrameNode) : frameDescr f ≠ inconsSummary := by
  intro h
  have h2 := frameDescr_head f
  rw [h] at h2
  exact absurd h2 (by decide)

/-- Skipping an exempt frame leaves the walk state unchanged. -/
theorem stepFrame_exempt (st : WidthState) (f : FrameNode)
    (h : auditedFrame f = false) : stepFrame st f = st := by
  unfold auditedFrame at h
  rw [bne_eq_false_iff_eq] at h
  simp [stepFrame, h]

/-- Exempt frames can be removed from the enumeration without changing the walk. -/
theorem runFrames_filter_audited (fs : List FrameNode) (st : WidthState) :
    runFrames st (fs.filter auditedFrame) = runFrames st fs := by
  induction fs generalizing st with
  | nil => rfl
  | cons f t ih =>
    rw [List.filter_cons]
    by_cases hp : auditedFrame f = true
    · rw [if_pos hp]
      unfold runFrames
      rw [List.foldl_cons, List.foldl_cons]
      exact ih (stepFrame st f)
    · rw [if_neg hp, ih]
      unfold runFrames
      rw [List.foldl_cons, stepFrame_exempt st f (Bool.eq_false_iff.mpr hp)]

/-- The selection loop ignores exempt frames root by root. -/
theorem foldl_runFrames_filter (sel : List (List FrameNode)) (st : WidthState) :
    (sel.map fun fs => fs.filter auditedFrame).foldl runFrames st =
      sel.foldl runFrames st := by
  induction sel generalizing st with
  | nil => rfl
  | cons fs rest ih =>
    rw [List.map_cons, List.foldl_cons, List.foldl_cons, runFrames_filter_audited, ih]

/-! ## Claim theorems: width auditor -/

/-- C8: frames named exactly "Desktop" are exempt: removing every such frame
from the host's frame enumeration leaves the width report unchanged, so such
a frame is never added to any of the three report sets, regardless of its
width and max-width values. -/
theorem checkWidths_exempt_root (sel : List (List FrameNode)) :
    checkWidths (sel.map fun fs => fs.filter auditedFrame) = checkWidths sel := by
  unfold checkWidths
  rw [foldl_runFrames_filter]

/-- C7: with a single width mode among the audited valid-width frames the
inconsistency set is empty; with two distinct modes it is non-empty and holds
the summary entry plus one entry for every frame in every mode bucket,
deduplicated (no duplicate descriptors). -/
theorem checkWidths_inconsistencies_modes (sel : List (List FrameNode)) :
    ((∀ f ∈ auditedValid sel.flatten, ∀ g ∈ auditedValid sel.flatten,
        f.width = g.width) →
      (checkWidths sel).inconsistencies = []) ∧
    ((∃ f ∈ auditedValid sel.flatten, ∃ g ∈ auditedValid sel.flatten,
        f.width ≠ g.width) →
      (checkWidths sel).inconsistencies ≠ [] ∧
      inconsSummary ∈ (checkWidths sel).inconsistencies ∧
      ∀ f ∈ auditedValid sel.flatten,
        frameDescr f ∈ (checkWidths sel).inconsistencies) ∧
    (checkWidths sel).inconsistencies.Nodup := by
  have hck : checkWidths sel = finishWidths (runFrames initWidthState sel.flatten) := by
    unfold checkWidths
    rw [foldl_runFrames]
  set st := runFrames initWidthState sel.flatten with hst
  have hinc : st.inconsistencies = [] := runFrames_inconsistencies _ _
  have hwt : st.widthTypes =
      (auditedValid sel.flatten).foldl (fun m f => addBucket m f.width f) [] :=
    runFrames_widthTypes sel.flatten initWidthState
  have hkeys : st.widthTypes.map Prod.fst =
      ((auditedValid sel.flatten).map fun f => f.width).foldl insertSet [] := by
    rw [hwt, keys_foldl_addBucket]
    rfl
  have hlen : st.widthTypes.length =
      (((auditedValid sel.flatten).map fun f => f.width).foldl insertSet []).length := by
    rw [← hkeys, List.length_map]
  refine ⟨?_, ?_, ?_⟩
  · intro h
    have hle : st.widthTypes.length ≤ 1 := by
      rw [hlen]
      apply length_dedup_all_eq
      intro x hx y hy
      obtain ⟨fx, hfx, rfl⟩ := List.mem_map.mp hx
      obtain ⟨fy, hfy, rfl⟩ := List.mem_map.mp hy
      exact h fx hfx fy hfy
    rw [hck]
    unfold finishWidths
    rw [if_neg (by omega)]
    exact hinc
  · rintro ⟨f, hf, g, hg, hne⟩
    have hgt : st.widthTypes.length > 1 := by
      rw [hlen]
      refine one_lt_length_of_two_mem ?_ ?_ hne
      · exact (mem_foldl_insertSet _ _ _).mpr (Or.inr (List.mem_map_of_mem _ hf))
      · exact (mem_foldl_insertSet _ _ _).mpr (Or.inr (List.mem_map_of_mem _ hg))
    have hic : (checkWidths sel).inconsistencies =
        st.widthTypes.foldl
          (fun acc kb => kb.2.foldl (fun a f => insertSet a (frameDescr f)) acc)
          (insertSet st.inconsistencies inconsSummary) := by
      rw [hck]
      unfold finishWidths
      rw [if_pos hgt]
    have hsummem : inconsSummary ∈ (checkWidths sel).inconsistencies := by
      rw [hic, mem_incons_foldl]
      exact Or.inl (by rw [hinc]; simp [insertSet])
    refine ⟨List.ne_nil_of_mem hsummem, hsummem, ?_⟩
    intro p hp
    rw [hic, mem_incons_foldl]
    right
    have hmem : ∃ kb ∈ (auditedValid sel.flatten).foldl
        (fun m f => addBucket m f.width f) [], p ∈ kb.2 :=
      (mem_buckets_foldl (auditedValid sel.flatten) [] p).mpr (Or.inr hp)
    rw [← hwt] at hmem
    obtain ⟨kb, hkb, hpkb⟩ := hmem
    exact ⟨kb, hkb, p, hpkb, rfl⟩
  · rw [hck]
    unfold finishWidths
    split
    · exact nodup_incons_foldl _ _ (nodup_insertSet (by rw [hinc]; exact List.nodup_nil))
    · rw [show (⟨st.inconsistencies, st.noMaxWidth, st.invalidWidths⟩ :
          WidthReport).inconsistencies = st.inconsistencies from rfl, hinc]
      exact List.nodup_nil

/-- Witness for C7: two same-mode frames give an empty inconsistency set; one
"1fr" frame plus one "fit-content" frame make the summary entry appear. -/
theorem checkWidths_inconsistencies_modes_witness :
    (∀ f ∈ auditedValid ([[⟨"A", "1", "1fr", some 10⟩, ⟨"B", "2", "1fr", some 10⟩]] :
        List (List FrameNode)).flatten,
      ∀ g ∈ auditedValid ([[⟨"A", "1", "1fr", some 10⟩, ⟨"B", "2", "1fr", some 10⟩]] :
        List (List FrameNode)).flatten, f.width = g.width) ∧
    (checkWidths [[⟨"A", "1", "1fr", some 10⟩,
      ⟨"B", "2", "1fr", some 10⟩]]).inconsistencies = [] ∧
    (∃ f ∈ auditedValid ([[⟨"A", "1", "1fr", some 10⟩, ⟨"C", "3", "fit-content", some 10⟩]] :
        List (List FrameNode)).flatten,
      ∃ g ∈ auditedValid ([[⟨"A", "1", "1fr", some 10⟩, ⟨"C", "3", "fit-content", some 10⟩]] :
        List (List FrameNode)).flatten, f.width ≠ g.width) ∧
    inconsSummary ∈ (checkWidths [[⟨"A", "1", "1fr", some 10⟩,
      ⟨"C", "3", "fit-content", some 10⟩]]).inconsistencies := by
  refine ⟨by decide, ?_, by decide, ?_⟩
  · exact (checkWidths_inconsistencies_modes _).1 (by decide)
  · exact ((checkWidths_inconsistencies_modes _).2.1 (by decide)).2.1

/-- C2 counterexample: the three report sets are not pairwise disjoint.  A
frame with an invalid width and no max-width lands in both `invalidWidths`
and `noMaxWidth`; a valid-width frame with no max-width in a mixed-mode run
lands in both `noMaxWidth` and `inconsistencies`; and a valid-width frame
rendering the same descriptor as an invalid one puts that descriptor in both
`invalidWidths` and `inconsistencies`. -/
theorem widthReport_sets_not_disjoint_cex :
    "\"A\" (ID: 1)" ∈ (checkWidths [[⟨"A", "1", "100px", none⟩, ⟨"B", "2", "1fr", none⟩,
      ⟨"C", "3", "fit-content", some 100⟩, ⟨"A", "1", "1fr", some 10⟩]]).invalidWidths ∧
    "\"A\" (ID: 1)" ∈ (checkWidths [[⟨"A", "1", "100px", none⟩, ⟨"B", "2", "1fr", none⟩,
      ⟨"C", "3", "fit-content", some 100⟩, ⟨"A", "1", "1fr", some 10⟩]]).noMaxWidth ∧
    "\"A\" (ID: 1)" ∈ (checkWidths [[⟨"A", "1", "100px", none⟩, ⟨"B", "2", "1fr", none⟩,
      ⟨"C", "3", "fit-content", some 100⟩, ⟨"A", "1", "1fr", some 10⟩]]).inconsistencies ∧
    "\"B\" (ID: 2)" ∈ (checkWidths [[⟨"A", "1", "100px", none⟩, ⟨"B", "2", "1fr", none⟩,
      ⟨"C", "3", "fit-content", some 100⟩, ⟨"A", "1", "1fr", some 10⟩]]).noMaxWidth ∧
    "\"B\" (ID: 2)" ∈ (checkWidths [[⟨"A", "1", "100px", none⟩, ⟨"B", "2", "1fr", none⟩,
      ⟨"C", "3", "fit-content", some 100⟩, ⟨"A", "1", "1fr", some 10⟩]]).inconsistencies := by
  decide

/-- C2 amended: `invalidWidths` and `inconsistencies` are disjoint whenever
equal rendered descriptors imply equal widths (in particular whenever all
descriptors are distinct); `noMaxWidth` may overlap both other sets. -/
theorem checkWidths_invalid_inconsistencies_disjoint (sel : List (List FrameNode))
    (hinj : ∀ f ∈ sel.flatten, ∀ g ∈ sel.flatten,
      frameDescr f = frameDescr g → f.width = g.width) :
    ∀ s ∈ (checkWidths sel).invalidWidths, s ∉ (checkWidths sel).inconsistencies := by
  have hck : checkWidths sel = finishWidths (runFrames initWidthState sel.flatten) := by
    unfold checkWidths
    rw [foldl_runFrames]
  set st := runFrames initWidthState sel.flatten with hst
  have hinc : st.inconsistencies = [] := runFrames_inconsistencies _ _
  have hwt : st.widthTypes =
      (auditedValid sel.flatten).foldl (fun m f => addBucket m f.width f) [] :=
    runFrames_widthTypes sel.flatten initWidthState
  have hinv : st.invalidWidths =
      ((auditedInvalid sel.flatten).map frameDescr).foldl insertSet [] :=
    runFrames_invalidWidths sel.flatten initWidthState
  have hiv : (finishWidths st).invalidWidths = st.invalidWidths := by
    unfold finishWidths
    split <;> rfl
  intro s hs hcontra
  rw [hck, hiv, hinv, mem_foldl_insertSet] at hs
  rcases hs with hs | hs
  · cases hs
  obtain ⟨f, hfmem, hfs⟩ := List.mem_map.mp hs
  have hfprops := List.mem_filter.mp hfmem
  have hfin : f ∈ sel.flatten := hfprops.1
  have hfinvalid : invalidWidth f = true := by
    have h2 := hfprops.2
    simp only [Bool.and_eq_true] at h2
    exact h2.2
  rw [hck] at hcontra
  by_cases hgt : st.widthTypes.length > 1
  · have hic : (finishWidths st).inconsistencies =
        st.widthTypes.foldl
          (fun acc kb => kb.2.foldl (fun a f => insertSet a (frameDescr f)) acc)
          (insertSet st.inconsistencies inconsSummary) := by
      unfold finishWidths
      rw [if_pos hgt]
    rw [hic, mem_incons_foldl] at hcontra
    rcases hcontra with h | ⟨kb, hkb, g, hgkb, hgs⟩
    · rw [hinc] at h
      have hsum : s = inconsSummary := by simpa [insertSet] using h
      exact frameDescr_ne_summary f (hfs.trans hsum)
    · have hgval : g ∈ auditedValid sel.flatten := by
        have hex : ∃ kb ∈ st.widthTypes, g ∈ kb.2 := ⟨kb, hkb, hgkb⟩
        rw [hwt] at hex
        rcases (mem_buckets_foldl _ _ _).mp hex with ⟨kb', hkb', -⟩ | hmem
        · cases hkb'
        · exact hmem
      have hgprops := List.mem_filter.mp hgval
      have hgin : g ∈ sel.flatten := hgprops.1
      have hgvalid : invalidWidth g = false := by
        have h2 := hgprops.2
        simp only [Bool.and_eq_true, Bool.not_eq_true'] at h2
        exact h2.2
      have hwidtheq : f.width = g.width := hinj f hfin g hgin (hfs.trans hgs.symm)
      have heq : invalidWidth f = invalidWidth g := by
        unfold invalidWidth
        rw [hwidtheq]
      rw [hfinvalid, hgvalid] at heq
      cases heq
  · have hic : (finishWidths st).inconsistencies = st.inconsistencies := by
      unfold finishWidths
      rw [if_neg hgt]
    rw [hic, hinc] at hcontra
    cases hcontra

/-- Witness for C2's amended claim at a selection with pairwise distinct
descriptors, a non-empty invalid set and a non-empty inconsistency set. -/
theorem checkWidths_invalid_inconsistencies_disjoint_witness :
    (∀ f ∈ ([[⟨"A", "1", "100px", none⟩, ⟨"B", "2", "1fr", some 10⟩,
        ⟨"C", "3", "fit-content", some 10⟩]] : List (List FrameNode)).flatten,
      ∀ g ∈ ([[⟨"A", "1", "100px", none⟩, ⟨"B", "2", "1fr", some 10⟩,
        ⟨"C", "3", "fit-content", some 10⟩]] : List (List FrameNode)).flatten,
      frameDescr f = frameDescr g → f.width = g.width) ∧
    ∀ s ∈ (checkWidths [[⟨"A", "1", "100px", none⟩, ⟨"B", "2", "1fr", some 10⟩,
      ⟨"C", "3", "fit-content", some 10⟩]]).invalidWidths,
      s ∉ (checkWidths [[⟨"A", "1", "100px", none⟩, ⟨"B", "2", "1fr", some 10⟩,
        ⟨"C", "3", "fit-content", some 10⟩]]).inconsistencies :=
  ⟨by decide, checkWidths_invalid_inconsistencies_disjoint _ (by decide)⟩

end CheckIt
